import Mathlib

/-!
Shallow embedding of the camera-session manager in `src/src/scanner.tsx`.
The file embeds the fully-featured component variant (source lines 280-1205):
its React state cells and refs become fields of `ScannerState`, the
`start`/`stop`/`onDecode`/`detectTorchSupport`/`toggleTorch` handlers and the
deferred `setTimeout` callbacks become the atomic event-loop segments of a
step function `step : Config → Event → Config × List Out`.  Atomicity
boundaries are the `await` suspension points of the source: `start` is split
into its synchronous prologue (`Event.invokeStart`), the resolution of the
constraint-fallback stream acquisition (`Event.acquireOk` / `Event.acquireFail`),
and the segment after the `loadedmetadata`/`play` awaits (`Event.attachDone`).
React state setters on an unmounted component are no-ops (React semantics;
the source itself guards most setters with `mountedRef.current`), while refs
(`pausedRef`, `lastResultAtRef`, `controlsRef`, the media stream) mutate
regardless.  The constraint-fallback driver of the variant at source lines
2044-2093 is embedded separately as `acquireWithFallbackChecked`.
-/

namespace Scanner

/-- `CameraMode` from scanner.tsx line 302. -/
inductive CameraMode
  | backMain
  | backWide
  | front
  | auto
deriving DecidableEq

/-- The permission states of the `permissionStatus` state cell (lines 316-318). -/
inductive PermissionStatus
  | granted
  | denied
  | prompt
  | unknown
deriving DecidableEq

/-- `CameraDevice` from scanner.tsx lines 291-294. -/
structure CameraDevice where
  deviceId : String
  label : String
deriving DecidableEq

def lowChars (s : String) : List Char := s.data.map Char.toLower

def prefixOfB : List Char → List Char → Bool
  | [], _ => true
  | _ :: _, [] => false
  | a :: as, b :: bs => a = b && prefixOfB as bs

def containsSub (hay needle : List Char) : Bool :=
  match hay with
  | [] => prefixOfB needle []
  | _ :: rest => prefixOfB needle hay || containsSub rest needle

/-- Case-insensitive substring test: the JS regexes in `categorizeCameras` are
alternations of literal lowercase tokens with the `i` flag, which is exactly
"some token occurs in the lowercased string". -/
def containsCI (s pat : String) : Bool :=
  containsSub (lowChars s) pat.data

/-- `isBack` from scanner.tsx lines 419-421:
`/back|rear|environment/i.test(s) || (/camera/i.test(s) && !/front|user|face/i.test(s))`. -/
def isBack (s : String) : Bool :=
  (containsCI s "back" || containsCI s "rear" || containsCI s "environment") ||
  (containsCI s "camera" &&
    !(containsCI s "front" || containsCI s "user" || containsCI s "face"))

/-- `isFront` from scanner.tsx line 422: `/front|user|face/i`. -/
def isFront (s : String) : Bool :=
  containsCI s "front" || containsCI s "user" || containsCI s "face"

/-- `isWide` from scanner.tsx lines 423-424:
`/ultra|ultra-wide|ultrawide|wide|0\.5x|0,5x|0x5|0_5x/i`. -/
def isWide (s : String) : Bool :=
  containsCI s "ultra" || containsCI s "ultra-wide" || containsCI s "ultrawide" ||
  containsCI s "wide" || containsCI s "0.5x" || containsCI s "0,5x" ||
  containsCI s "0x5" || containsCI s "0_5x"

/-- Result record of `categorizeCameras` (scanner.tsx line 435). -/
structure Categorized where
  pickBackMain : Option CameraDevice
  pickBackWide : Option CameraDevice
  pickFront : Option CameraDevice
deriving DecidableEq

/-- `categorizeCameras` from scanner.tsx lines 417-436.  `backMain[0] || back[0] || cams[0]`
chains on `undefined`, i.e. `Option` alternatives. -/
def categorizeCameras (cams : List CameraDevice) : Categorized :=
  let back := cams.filter fun c => isBack c.label
  let front := cams.filter fun c => isFront c.label
  let backWide := back.filter fun c => isWide c.label
  let backMain := back.filter fun c => !isWide c.label
  { pickBackMain :=
      match backMain.head? with
      | some d => some d
      | none =>
        match back.head? with
        | some d => some d
        | none => cams.head?
  , pickBackWide := backWide.head?
  , pickFront := front.head? }

/-- Error classes of the hardware capture-acquisition layer, by `e.name`. -/
inductive MediaErr
  | overconstrained
  | notFound
  | notAllowed
  | notSupported
  | otherFailure
deriving DecidableEq

/-- The three constraint tiers of stream acquisition in `start`. -/
inductive AcqTier
  | exactDevice
  | facingMode
  | unconstrained
deriving DecidableEq

/-- `e?.name === 'OverconstrainedError' || e?.name === 'NotFoundError'`
(scanner.tsx line 2058). -/
def isFallbackErr : MediaErr → Bool
  | .overconstrained => true
  | .notFound => true
  | _ => false

/-- Whether an acquisition attempt succeeded. -/
def exOk : Except MediaErr Unit → Bool
  | .ok _ => true
  | .error _ => false

/-- The constraint-fallback driver of `start` at scanner.tsx lines 835-863:
tier 1 (`constraintsPrimary`, exact device id with resolution/frame-rate
hints), on any failure tier 2 (`buildConstraints(desiredMode, undefined)`,
facing-mode hint), on any failure tier 3 (`{audio:false, video:true}`).
Arguments are the outcomes the hardware layer would return for each tier;
the result is the list of tiers actually attempted and the final outcome. -/
def acquireWithFallback (r1 r2 r3 : Except MediaErr Unit) :
    List AcqTier × Except MediaErr Unit :=
  match r1 with
  | .ok _ => ([.exactDevice], .ok ())
  | .error _ =>
    match r2 with
    | .ok _ => ([.exactDevice, .facingMode], .ok ())
    | .error _ =>
      match r3 with
      | .ok _ => ([.exactDevice, .facingMode, .unconstrained], .ok ())
      | .error e3 => ([.exactDevice, .facingMode, .unconstrained], .error e3)

/-- The constraint-fallback driver of `start` at scanner.tsx lines 2044-2093:
tier 2 is attempted only when tier 1 failed with `OverconstrainedError` or
`NotFoundError` (otherwise `throw e` aborts), but tier 3 is attempted on any
tier-2 failure. -/
def acquireWithFallbackChecked (r1 r2 r3 : Except MediaErr Unit) :
    List AcqTier × Except MediaErr Unit :=
  match r1 with
  | .ok _ => ([.exactDevice], .ok ())
  | .error e =>
    if isFallbackErr e then
      match r2 with
      | .ok _ => ([.exactDevice, .facingMode], .ok ())
      | .error _ =>
        match r3 with
        | .ok _ => ([.exactDevice, .facingMode, .unconstrained], .ok ())
        | .error e3 => ([.exactDevice, .facingMode, .unconstrained], .error e3)
    else ([.exactDevice], .error e)

/-- The component's state: the React state cells exposed to the presentation
layer (scanner.tsx lines 310-320) plus the refs (lines 322-334) and the
media-stream attachment of the video element.  `controls` is
`controlsRef.current`: `none` models `null`, `some b` a held `IScannerControls`
whose `switchTorch` member exists iff `b`.  `decodeActive` models whether the
zxing decode loop is running (it stops delivering callbacks once `stop()` has
been called on the controls).  `videoSrc` models whether a live `MediaStream`
is attached to the video element. -/
structure ScannerState where
  devices : List CameraDevice
  selectedDeviceId : String
  isStarting : Bool
  isRunning : Bool
  torchSupported : Bool
  torchOn : Bool
  permissionStatus : PermissionStatus
  mode : CameraMode
  paused : Bool
  lastResultAt : Nat
  mounted : Bool
  controls : Option Bool
  decodeActive : Bool
  videoSrc : Bool
deriving DecidableEq

/-- The suspension phases of an in-flight `start` invocation:
`acquiring` = awaiting the constraint-fallback stream acquisition
(scanner.tsx lines 835-863), `attaching` = awaiting `loadedmetadata` and
`video.play()` (lines 874-889). -/
inductive StartPhase
  | acquiring (desiredMode : CameraMode)
  | attaching (desiredMode : CameraMode)
deriving DecidableEq

/-- The deferred callbacks scheduled by `start` (scanner.tsx lines 893-908). -/
inductive TimerKind
  | torchProbe
  | lensAdjust
deriving DecidableEq

def TimerKind.beq : TimerKind → TimerKind → Bool
  | .torchProbe, .torchProbe => true
  | .lensAdjust, .lensAdjust => true
  | _, _ => false

def hasTimer (ts : List TimerKind) (k : TimerKind) : Bool :=
  ts.any (TimerKind.beq k)

def eraseTimer : List TimerKind → TimerKind → List TimerKind
  | [], _ => []
  | t :: ts, k => if TimerKind.beq t k then ts else t :: eraseTimer ts k

/-- A configuration of the event loop: component state, the phase of the (at
most one) in-flight `start`, and the queue of scheduled deferred callbacks. -/
structure Config where
  st : ScannerState
  pending : Option StartPhase
  timers : List TimerKind
deriving DecidableEq

/-- Errors surfaced through the `onError` callback. -/
inductive ErrKind
  | permissionDenied
  | startFailed
  | torchUnsupported
deriving DecidableEq

/-- Observable outputs: results forwarded through `onResult` (with the
`performance.now()` timestamp at which the decode tick arrived) and errors
through `onError`. -/
inductive Out
  | result (now : Nat) (text : String)
  | error (e : ErrKind)
deriving DecidableEq

def Out.isResult : Out → Bool
  | .result _ _ => true
  | .error _ => false

/-- The atomic event-loop segments.  `invokeStart` is the synchronous prologue
of `start` (scanner.tsx lines 796-833); `acquireOk hasSwitch` / `acquireFail`
the resolution of the three-tier acquisition (`hasSwitch`: whether the
returned `IScannerControls` exposes `switchTorch`); `attachDone planned` the
segment after the metadata/play awaits, with `planned` the device id that
`pickDeviceIdForMode` resolved; `invokeStop` is `stop` (lines 933-941);
`torchTimerFire capTorch` the deferred probe (lines 893-900, `capTorch`: what
the capability query would report for the attached track); `lensTimerFire`
the zoom adjustment (lines 903-908, no observable state); `decodeTick` one
zxing callback (`onDecode`, lines 580-601); `visibilityChange` the
`visibilitychange` handler (lines 371-373); `toggleTorch ok` the torch toggle
(lines 952-994, `ok`: whether some control method succeeds); `teardown` the
effect cleanup (lines 376-384); `catalogUpdate` the state written by
`initDevices`/`checkPermissions`/permission-change listeners. -/
inductive Event
  | invokeStart (m : CameraMode)
  | acquireOk (hasSwitch : Bool)
  | acquireFail
  | attachDone (planned : Option String)
  | invokeStop
  | torchTimerFire (capTorch : Bool)
  | lensTimerFire
  | decodeTick (now : Nat) (res : Option String)
  | visibilityChange (hidden : Bool)
  | toggleTorch (ok : Bool)
  | teardown
  | catalogUpdate (ds : List CameraDevice) (sel : String) (m : CameraMode)
      (p : PermissionStatus)

def Event.isInvokeStart : Event → Bool
  | .invokeStart _ => true
  | _ => false

/-- A `visibilitychange` event that makes the page visible again. -/
def Event.isVisibilityShow : Event → Bool
  | .visibilityChange h => !h
  | _ => false

/-- One atomic event-loop segment, returning the next configuration and the
outputs emitted during the segment. -/
def step (c : Config) (e : Event) : Config × List Out :=
  match e with
  | .invokeStart m =>
    -- lines 796-833: guards, then prologue and suspension into acquisition.
    if !c.st.mounted then (c, [])
    else if c.st.isStarting || c.st.isRunning then (c, [])
    else if c.st.permissionStatus = .denied then (c, [.error .permissionDenied])
    else
      let st' := { c.st with
        isStarting := true, torchOn := false, torchSupported := false,
        paused := false, controls := none, decodeActive := false, videoSrc := false }
      ({ st := st', pending := some (.acquiring m), timers := c.timers }, [])
  | .acquireOk hasSwitch =>
    -- lines 863-872: the fallback chain resolved with controls.
    match c.pending with
    | some (.acquiring m) =>
      if c.st.mounted then
        let st' := { c.st with controls := some hasSwitch, decodeActive := true, videoSrc := true }
        ({ st := st', pending := some (.attaching m), timers := c.timers }, [])
      else
        -- lines 865-869: torn down while awaiting: release, do not adopt.
        ({ st := { c.st with decodeActive := false, videoSrc := false }
         , pending := none, timers := c.timers }, [])
    | _ => (c, [])
  | .acquireFail =>
    -- lines 912-917: all tiers failed; outer catch + finally.
    match c.pending with
    | some (.acquiring _) =>
      if c.st.mounted then
        ({ st := { c.st with isRunning := false, isStarting := false }
         , pending := none, timers := c.timers }, [.error .startFailed])
      else
        ({ st := c.st, pending := none, timers := c.timers }, [])
    | _ => (c, [])
  | .attachDone planned =>
    -- lines 891-917: after metadata/play awaits; schedules the deferred
    -- callbacks and leaves `starting`.
    match c.pending with
    | some (.attaching m) =>
      let st' :=
        if c.st.mounted then
          { c.st with
            isRunning := true
          , selectedDeviceId :=
              match planned with
              | some d => if d.isEmpty then c.st.selectedDeviceId else d
              | none => c.st.selectedDeviceId
          , mode := if m = .auto then .backMain else m
          , isStarting := false }
        else c.st
      ({ st := st', pending := none
       , timers := c.timers ++ [.torchProbe, .lensAdjust] }, [])
    | _ => (c, [])
  | .invokeStop =>
    -- lines 933-941.
    let st0 := { c.st with
      paused := true, controls := none, decodeActive := false, videoSrc := false }
    let st' :=
      if c.st.mounted then
        { st0 with isRunning := false, torchOn := false, torchSupported := false }
      else st0
    ({ st := st', pending := c.pending, timers := c.timers }, [])
  | .torchTimerFire capTorch =>
    -- lines 893-900 with detectTorchSupport (lines 549-578).
    if hasTimer c.timers .torchProbe then
      let timers' := eraseTimer c.timers .torchProbe
      if !c.st.mounted then ({ c with timers := timers' }, [])
      else
        let supported :=
          if c.st.controls = some true then true
          else if c.st.videoSrc then capTorch else false
        ({ st := { c.st with torchSupported := supported }
         , pending := c.pending, timers := timers' }, [])
    else (c, [])
  | .lensTimerFire =>
    -- lines 903-908: applies zoom constraints only; no modelled state.
    if hasTimer c.timers .lensAdjust then
      ({ c with timers := eraseTimer c.timers .lensAdjust }, [])
    else (c, [])
  | .decodeTick now res =>
    -- onDecode, lines 580-601; the zxing loop only delivers while active.
    if !c.st.decodeActive then (c, [])
    else if !c.st.mounted || c.st.paused then (c, [])
    else
      match res with
      | some text =>
        if now - c.st.lastResultAt > 500 then
          ({ c with st := { c.st with lastResultAt := now } }, [.result now text])
        else (c, [])
      | none => (c, [])
  | .visibilityChange hidden =>
    -- lines 371-373 (listener removed at teardown).
    if c.st.mounted then ({ c with st := { c.st with paused := hidden } }, [])
    else (c, [])
  | .toggleTorch ok =>
    -- lines 952-994.
    if !c.st.isRunning || !c.st.torchSupported then (c, [])
    else if !c.st.videoSrc then (c, [])
    else if ok then
      (if c.st.mounted then
        { c with st := { c.st with torchOn := !c.st.torchOn } }
       else c, [])
    else (c, if c.st.mounted then [.error .torchUnsupported] else [])
  | .teardown =>
    -- lines 376-384: `controlsRef.current?.stop()` halts the loop (the ref is
    -- not nulled), `stopActiveStream` releases the tracks.
    let st' := { c.st with mounted := false, decodeActive := false, videoSrc := false }
    ({ c with st := st' }, [])
  | .catalogUpdate ds sel m p =>
    if c.st.mounted then
      let st' := { c.st with devices := ds, selectedDeviceId := sel, mode := m, permissionStatus := p }
      ({ c with st := st' }, [])
    else (c, [])

/-- The state cells and refs at component creation (scanner.tsx lines 310-334). -/
def initState : ScannerState :=
  { devices := [], selectedDeviceId := "", isStarting := false, isRunning := false
  , torchSupported := false, torchOn := false, permissionStatus := .unknown
  , mode := .auto, paused := false, lastResultAt := 0, mounted := true
  , controls := none, decodeActive := false, videoSrc := false }

def initConfig : Config :=
  { st := initState, pending := none, timers := [] }

/-- Run a sequence of event-loop segments. -/
def run (c : Config) : List Event → Config
  | [] => c
  | e :: es => run (step c e).1 es

/-- All outputs emitted along a sequence of event-loop segments. -/
def outputs (c : Config) : List Event → List Out
  | [] => []
  | e :: es => (step c e).2 ++ outputs (step c e).1 es

/-- Configurations reachable from the freshly created component. -/
inductive Reachable : Config → Prop
  | init : Reachable initConfig
  | next {c : Config} (e : Event) : Reachable c → Reachable (step c e).1

/-- The inductive invariant of the session state machine: mutual exclusion of
the `isStarting`/`isRunning` flags, the facts that an in-flight `start` holds
`isStarting` and that during the acquisition await the stream/controls/torch
state is clean, that controls or an attached stream exist only during or
after a `start`, and that an idle session has both torch flags cleared. -/
def Inv (c : Config) : Prop :=
  (c.st.isStarting = true → c.st.isRunning = false) ∧
  (∀ ph, c.pending = some ph → c.st.isStarting = true ∧ c.st.isRunning = false) ∧
  (∀ m, c.pending = some (.acquiring m) →
     c.st.controls = none ∧ c.st.videoSrc = false ∧ c.st.decodeActive = false ∧
     c.st.torchSupported = false ∧ c.st.torchOn = false) ∧
  (∀ b, c.st.controls = some b → (c.st.isStarting = true ∨ c.st.isRunning = true)) ∧
  (c.st.videoSrc = true → (c.st.isStarting = true ∨ c.st.isRunning = true)) ∧
  (c.st.isStarting = false → c.st.isRunning = false →
     c.st.torchSupported = false ∧ c.st.torchOn = false)

/-- A torn-down component with no session: once `mountedRef` is cleared and no
`start` is in flight, `isRunning` can never become true again. -/
def Dead (c : Config) : Prop :=
  c.st.mounted = false ∧ c.st.isRunning = false ∧ c.pending = none

/-- The state `stop()` leaves behind when no `start` is in flight: no pending
invocation, no controls handle, no attached stream, both torch flags cleared.
Preserved by every event except a new `start` invocation. -/
def TorchClean (c : Config) : Prop :=
  c.pending = none ∧ c.st.controls = none ∧ c.st.videoSrc = false ∧
  c.st.torchSupported = false ∧ c.st.torchOn = false

theorem inv_init : Inv initConfig := by
  simp [Inv, initConfig, initState]

theorem inv_step (c : Config) (e : Event) (h : Inv c) : Inv (step c e).1 := by
  obtain ⟨hA, hB, hC, hD, hE, hF⟩ := h
  cases e with
  | invokeStart m =>
    simp only [step]
    split
    · exact ⟨hA, hB, hC, hD, hE, hF⟩
    · split
      · exact ⟨hA, hB, hC, hD, hE, hF⟩
      · split
        · exact ⟨hA, hB, hC, hD, hE, hF⟩
        · rename_i hm hg hp
          simp only [Bool.or_eq_true, not_or, Bool.not_eq_true] at hg
          obtain ⟨hs, hr⟩ := hg
          unfold Inv
          refine ⟨?_, ?_, ?_, ?_, ?_, ?_⟩
          · intro _
            exact hr
          · intro ph _
            exact ⟨rfl, hr⟩
          · intro m' _
            exact ⟨rfl, rfl, rfl, rfl, rfl⟩
          · intro b hb
            exact Option.noConfusion hb
          · intro hv
            exact absurd hv (by simp)
          · intro hs' _
            exact absurd hs' (by simp)
  | acquireOk hasSwitch =>
    cases hpend : c.pending with
    | none =>
      simp only [step, hpend]
      exact ⟨hA, hB, hC, hD, hE, hF⟩
    | some ph =>
      cases ph with
      | acquiring m =>
        obtain ⟨hs, hr⟩ := hB _ hpend
        obtain ⟨hc1, hc2, hc3, hc4, hc5⟩ := hC _ hpend
        simp only [step, hpend]
        split
        · unfold Inv
          refine ⟨?_, ?_, ?_, ?_, ?_, ?_⟩
          · intro _
            exact hr
          · intro ph _
            exact ⟨hs, hr⟩
          · intro m' hph
            simp only [Option.some.injEq] at hph
            exact absurd hph (by intro hco; exact StartPhase.noConfusion hco)
          · intro b _
            exact Or.inl hs
          · intro _
            exact Or.inl hs
          · intro hs' _
            exact absurd (hs.symm.trans hs') (by simp)
        · unfold Inv
          refine ⟨?_, ?_, ?_, ?_, ?_, ?_⟩
          · intro _
            exact hr
          · intro ph hph
            exact Option.noConfusion hph
          · intro m' hph
            exact Option.noConfusion hph
          · intro b hb
            exact hD b hb
          · intro hv
            exact absurd hv (by simp)
          · intro _ _
            exact ⟨hc4, hc5⟩
      | attaching m =>
        simp only [step, hpend]
        exact ⟨hA, hB, hC, hD, hE, hF⟩
  | acquireFail =>
    cases hpend : c.pending with
    | none =>
      simp only [step, hpend]
      exact ⟨hA, hB, hC, hD, hE, hF⟩
    | some ph =>
      cases ph with
      | acquiring m =>
        obtain ⟨hs, hr⟩ := hB _ hpend
        obtain ⟨hc1, hc2, hc3, hc4, hc5⟩ := hC _ hpend
        simp only [step, hpend]
        split
        · unfold Inv
          refine ⟨?_, ?_, ?_, ?_, ?_, ?_⟩
          · intro _
            exact rfl
          · intro ph hph
            exact Option.noConfusion hph
          · intro m' hph
            exact Option.noConfusion hph
          · intro b hb
            exact absurd hb (by simp [hc1])
          · intro hv
            exact absurd hv (by simp [hc2])
          · intro _ _
            exact ⟨hc4, hc5⟩
        · unfold Inv
          refine ⟨?_, ?_, ?_, ?_, ?_, ?_⟩
          · intro hs'
            exact hA hs'
          · intro ph hph
            exact Option.noConfusion hph
          · intro m' hph
            exact Option.noConfusion hph
          · intro b hb
            exact hD b hb
          · intro hv
            exact hE hv
          · intro hs' _
            exact absurd (hs.symm.trans hs') (by simp)
      | attaching m =>
        simp only [step, hpend]
        exact ⟨hA, hB, hC, hD, hE, hF⟩
  | attachDone planned =>
    cases hpend : c.pending with
    | none =>
      simp only [step, hpend]
      exact ⟨hA, hB, hC, hD, hE, hF⟩
    | some ph =>
      cases ph with
      | acquiring m =>
        simp only [step, hpend]
        exact ⟨hA, hB, hC, hD, hE, hF⟩
      | attaching m =>
        obtain ⟨hs, hr⟩ := hB _ hpend
        simp only [step, hpend]
        split
        · unfold Inv
          refine ⟨?_, ?_, ?_, ?_, ?_, ?_⟩
          · intro hs'
            exact absurd hs' (by simp)
          · intro ph hph
            exact Option.noConfusion hph
          · intro m' hph
            exact Option.noConfusion hph
          · intro b _
            exact Or.inr rfl
          · intro _
            exact Or.inr rfl
          · intro _ hr'
            exact absurd hr' (by simp)
        · unfold Inv
          refine ⟨?_, ?_, ?_, ?_, ?_, ?_⟩
          · intro hs'
            exact hA hs'
          · intro ph hph
            exact Option.noConfusion hph
          · intro m' hph
            exact Option.noConfusion hph
          · intro b hb
            exact hD b hb
          · intro hv
            exact hE hv
          · intro hs' _
            exact absurd (hs.symm.trans hs') (by simp)
  | invokeStop =>
    simp only [step]
    split
    · unfold Inv
      refine ⟨?_, ?_, ?_, ?_, ?_, ?_⟩
      · intro _
        exact rfl
      · intro ph hph
        exact ⟨(hB ph hph).1, rfl⟩
      · intro m' _
        exact ⟨rfl, rfl, rfl, rfl, rfl⟩
      · intro b hb
        exact Option.noConfusion hb
      · intro hv
        exact absurd hv (by simp)
      · intro _ _
        exact ⟨rfl, rfl⟩
    · unfold Inv
      refine ⟨?_, ?_, ?_, ?_, ?_, ?_⟩
      · intro hs'
        exact hA hs'
      · intro ph hph
        exact hB ph hph
      · intro m' hph
        exact ⟨rfl, rfl, rfl, (hC m' hph).2.2.2.1, (hC m' hph).2.2.2.2⟩
      · intro b hb
        exact Option.noConfusion hb
      · intro hv
        exact absurd hv (by simp)
      · intro hs' hr'
        exact hF hs' hr'
  | torchTimerFire capTorch =>
    simp only [step]
    split
    · split
      · exact ⟨hA, hB, hC, hD, hE, hF⟩
      · rename_i ht hm
        simp only [Bool.not_eq_true', Bool.not_eq_false] at hm
        unfold Inv
        refine ⟨?_, ?_, ?_, ?_, ?_, ?_⟩
        · intro hs'
          exact hA hs'
        · intro ph hph
          exact hB ph hph
        · intro m' hph
          obtain ⟨hc1, hc2, hc3, hc4, hc5⟩ := hC m' hph
          refine ⟨hc1, hc2, hc3, ?_, hc5⟩
          simp only [hc1, hc2]
          simp
        · intro b hb
          exact hD b hb
        · intro hv
          exact hE hv
        · intro hs hr
          simp only at hs hr
          refine ⟨?_, (hF hs hr).2⟩
          have hcn : c.st.controls = none := by
            cases hcc : c.st.controls with
            | none => rfl
            | some b =>
              rcases hD b hcc with h1 | h1
              · exact absurd h1 (by simp [hs])
              · exact absurd h1 (by simp [hr])
          have hvs : c.st.videoSrc = false := by
            cases hvv : c.st.videoSrc with
            | false => rfl
            | true =>
              rcases hE hvv with h1 | h1
              · exact absurd h1 (by simp [hs])
              · exact absurd h1 (by simp [hr])
          simp only [hcn, hvs]
          simp
    · exact ⟨hA, hB, hC, hD, hE, hF⟩
  | lensTimerFire =>
    simp only [step]
    split
    · exact ⟨hA, hB, hC, hD, hE, hF⟩
    · exact ⟨hA, hB, hC, hD, hE, hF⟩
  | decodeTick now res =>
    simp only [step]
    split
    · exact ⟨hA, hB, hC, hD, hE, hF⟩
    · split
      · exact ⟨hA, hB, hC, hD, hE, hF⟩
      · cases res with
        | none => exact ⟨hA, hB, hC, hD, hE, hF⟩
        | some text =>
          simp only
          split
          · unfold Inv
            refine ⟨?_, ?_, ?_, ?_, ?_, ?_⟩
            · intro hs'
              exact hA hs'
            · intro ph hph
              exact hB ph hph
            · intro m' hph
              exact hC m' hph
            · intro b hb
              exact hD b hb
            · intro hv
              exact hE hv
            · intro hs' hr'
              exact hF hs' hr'
          · exact ⟨hA, hB, hC, hD, hE, hF⟩
  | visibilityChange hidden =>
    simp only [step]
    split
    · unfold Inv
      refine ⟨?_, ?_, ?_, ?_, ?_, ?_⟩
      · intro hs'
        exact hA hs'
      · intro ph hph
        exact hB ph hph
      · intro m' hph
        exact hC m' hph
      · intro b hb
        exact hD b hb
      · intro hv
        exact hE hv
      · intro hs' hr'
        exact hF hs' hr'
    · exact ⟨hA, hB, hC, hD, hE, hF⟩
  | toggleTorch ok =>
    simp only [step]
    split
    · exact ⟨hA, hB, hC, hD, hE, hF⟩
    · split
      · exact ⟨hA, hB, hC, hD, hE, hF⟩
      · rename_i hg hv
        simp only [Bool.or_eq_true, not_or, Bool.not_eq_true', Bool.not_eq_false] at hg
        obtain ⟨hrun, hsup⟩ := hg
        split
        · split
          · rename_i hok hm
            unfold Inv
            refine ⟨?_, ?_, ?_, ?_, ?_, ?_⟩
            · intro hs'
              exact hA hs'
            · intro ph hph
              exact absurd (hB ph hph).2 (by simp [hrun])
            · intro m' hph
              exact absurd (hB _ hph).2 (by simp [hrun])
            · intro b hb
              exact hD b hb
            · intro hv'
              exact hE hv'
            · intro hs' hr'
              simp only at hr'
              exact absurd hrun (by simp [hr'])
          · exact ⟨hA, hB, hC, hD, hE, hF⟩
        · exact ⟨hA, hB, hC, hD, hE, hF⟩
  | teardown =>
    simp only [step]
    unfold Inv
    refine ⟨?_, ?_, ?_, ?_, ?_, ?_⟩
    · intro hs'
      exact hA hs'
    · intro ph hph
      exact hB ph hph
    · intro m' hph
      obtain ⟨hc1, hc2, hc3, hc4, hc5⟩ := hC m' hph
      exact ⟨hc1, rfl, rfl, hc4, hc5⟩
    · intro b hb
      exact hD b hb
    · intro hv
      exact absurd hv (by simp)
    · intro hs' hr'
      exact hF hs' hr'
  | catalogUpdate ds sel m p =>
    simp only [step]
    split
    · unfold Inv
      refine ⟨?_, ?_, ?_, ?_, ?_, ?_⟩
      · intro hs'
        exact hA hs'
      · intro ph hph
        exact hB ph hph
      · intro m' hph
        exact hC m' hph
      · intro b hb
        exact hD b hb
      · intro hv
        exact hE hv
      · intro hs' hr'
        exact hF hs' hr'
    · exact ⟨hA, hB, hC, hD, hE, hF⟩

theorem inv_reachable {c : Config} (h : Reachable c) : Inv c := by
  induction h with
  | init => exact inv_init
  | next e _ ih => exact inv_step _ e ih

theorem reachable_run {c : Config} (h : Reachable c) (evs : List Event) :
    Reachable (run c evs) := by
  induction evs generalizing c with
  | nil => exact h
  | cons e es ih => exact ih (Reachable.next e h)

theorem dead_step (c : Config) (e : Event) (h : Dead c) : Dead (step c e).1 := by
  obtain ⟨hm, hr, hp⟩ := h
  cases e with
  | invokeStart m =>
    simp only [step]
    split
    · exact ⟨hm, hr, hp⟩
    · rename_i hcond
      exact absurd (by simp [hm] : (!c.st.mounted) = true) hcond
  | acquireOk hasSwitch =>
    simp only [step, hp]
    exact ⟨hm, hr, hp⟩
  | acquireFail =>
    simp only [step, hp]
    exact ⟨hm, hr, hp⟩
  | attachDone planned =>
    simp only [step, hp]
    exact ⟨hm, hr, hp⟩
  | invokeStop =>
    simp only [step]
    split
    · rename_i hcond
      rw [hm] at hcond
      exact Bool.noConfusion hcond
    · exact ⟨hm, hr, hp⟩
  | torchTimerFire capTorch =>
    simp only [step]
    split
    · split
      · exact ⟨hm, hr, hp⟩
      · rename_i ht hcond
        exact absurd (by simp [hm] : (!c.st.mounted) = true) hcond
    · exact ⟨hm, hr, hp⟩
  | lensTimerFire =>
    simp only [step]
    split
    · exact ⟨hm, hr, hp⟩
    · exact ⟨hm, hr, hp⟩
  | decodeTick now res =>
    simp only [step]
    split
    · exact ⟨hm, hr, hp⟩
    · split
      · exact ⟨hm, hr, hp⟩
      · rename_i hd hcond
        exact absurd (by simp [hm] : (!c.st.mounted || c.st.paused) = true) hcond
  | visibilityChange hidden =>
    simp only [step]
    split
    · rename_i hcond
      rw [hm] at hcond
      exact Bool.noConfusion hcond
    · exact ⟨hm, hr, hp⟩
  | toggleTorch ok =>
    simp only [step]
    split
    · exact ⟨hm, hr, hp⟩
    · rename_i hcond
      exact absurd (by simp [hr] : (!c.st.isRunning || !c.st.torchSupported) = true) hcond
  | teardown =>
    exact ⟨rfl, hr, hp⟩
  | catalogUpdate ds sel m p =>
    simp only [step]
    split
    · rename_i hcond
      rw [hm] at hcond
      exact Bool.noConfusion hcond
    · exact ⟨hm, hr, hp⟩

theorem dead_run (c : Config) (evs : List Event) (h : Dead c) : Dead (run c evs) := by
  induction evs generalizing c with
  | nil => exact h
  | cons e es ih => exact ih _ (dead_step c e h)

theorem torchClean_step (c : Config) (e : Event) (h : TorchClean c)
    (hne : Event.isInvokeStart e = false) : TorchClean (step c e).1 := by
  obtain ⟨hp, hc, hv, hts, hto⟩ := h
  cases e with
  | invokeStart m => exact absurd hne (by simp [Event.isInvokeStart])
  | acquireOk hasSwitch =>
    simp only [step, hp]
    exact ⟨hp, hc, hv, hts, hto⟩
  | acquireFail =>
    simp only [step, hp]
    exact ⟨hp, hc, hv, hts, hto⟩
  | attachDone planned =>
    simp only [step, hp]
    exact ⟨hp, hc, hv, hts, hto⟩
  | invokeStop =>
    simp only [step]
    split
    · exact ⟨hp, rfl, rfl, rfl, rfl⟩
    · exact ⟨hp, rfl, rfl, hts, hto⟩
  | torchTimerFire capTorch =>
    simp only [step]
    split
    · split
      · exact ⟨hp, hc, hv, hts, hto⟩
      · refine ⟨hp, hc, hv, ?_, hto⟩
        simp only [hc, hv]
        simp
    · exact ⟨hp, hc, hv, hts, hto⟩
  | lensTimerFire =>
    simp only [step]
    split
    · exact ⟨hp, hc, hv, hts, hto⟩
    · exact ⟨hp, hc, hv, hts, hto⟩
  | decodeTick now res =>
    simp only [step]
    split
    · exact ⟨hp, hc, hv, hts, hto⟩
    · split
      · exact ⟨hp, hc, hv, hts, hto⟩
      · cases res with
        | none => exact ⟨hp, hc, hv, hts, hto⟩
        | some text =>
          simp only
          split
          · exact ⟨hp, hc, hv, hts, hto⟩
          · exact ⟨hp, hc, hv, hts, hto⟩
  | visibilityChange hidden =>
    simp only [step]
    split
    · exact ⟨hp, hc, hv, hts, hto⟩
    · exact ⟨hp, hc, hv, hts, hto⟩
  | toggleTorch ok =>
    simp only [step]
    split
    · exact ⟨hp, hc, hv, hts, hto⟩
    · rename_i hcond
      exact absurd (by simp [hts] : (!c.st.isRunning || !c.st.torchSupported) = true) hcond
  | teardown =>
    exact ⟨hp, hc, rfl, hts, hto⟩
  | catalogUpdate ds sel m p =>
    simp only [step]
    split
    · exact ⟨hp, hc, hv, hts, hto⟩
    · exact ⟨hp, hc, hv, hts, hto⟩

theorem torchClean_run (c : Config) (evs : List Event) (h : TorchClean c)
    (hs : ∀ e ∈ evs, Event.isInvokeStart e = false) : TorchClean (run c evs) := by
  induction evs generalizing c with
  | nil => exact h
  | cons e es ih =>
    exact ih _ (torchClean_step c e h (hs e (List.mem_cons_self e es)))
      (fun e' he' => hs e' (List.mem_cons_of_mem e he'))

theorem paused_step (c : Config) (e : Event) (hpz : c.st.paused = true)
    (h1 : Event.isInvokeStart e = false) (h2 : Event.isVisibilityShow e = false) :
    (step c e).1.st.paused = true ∧ ∀ o ∈ (step c e).2, Out.isResult o = false := by
  cases e with
  | invokeStart m => exact absurd h1 (by simp [Event.isInvokeStart])
  | acquireOk hasSwitch =>
    simp only [step]
    split
    · split
      · exact ⟨hpz, by simp⟩
      · exact ⟨hpz, by simp⟩
    · exact ⟨hpz, by simp⟩
  | acquireFail =>
    simp only [step]
    split
    · split
      · exact ⟨hpz, by simp [Out.isResult]⟩
      · exact ⟨hpz, by simp⟩
    · exact ⟨hpz, by simp⟩
  | attachDone planned =>
    simp only [step]
    split
    · split
      · exact ⟨hpz, by simp⟩
      · exact ⟨hpz, by simp⟩
    · exact ⟨hpz, by simp⟩
  | invokeStop =>
    simp only [step]
    split
    · exact ⟨rfl, by simp⟩
    · exact ⟨rfl, by simp⟩
  | torchTimerFire capTorch =>
    simp only [step]
    split
    · split
      · exact ⟨hpz, by simp⟩
      · exact ⟨hpz, by simp⟩
    · exact ⟨hpz, by simp⟩
  | lensTimerFire =>
    simp only [step]
    split
    · exact ⟨hpz, by simp⟩
    · exact ⟨hpz, by simp⟩
  | decodeTick now res =>
    simp only [step]
    split
    · exact ⟨hpz, by simp⟩
    · split
      · exact ⟨hpz, by simp⟩
      · rename_i hd hcond
        exact absurd (by simp [hpz] : (!c.st.mounted || c.st.paused) = true) hcond
  | visibilityChange hidden =>
    have hh : hidden = true := by
      simp only [Event.isVisibilityShow, Bool.not_eq_false'] at h2
      exact h2
    simp only [step]
    split
    · exact ⟨hh ▸ rfl, by simp⟩
    · exact ⟨hpz, by simp⟩
  | toggleTorch ok =>
    simp only [step]
    split
    · exact ⟨hpz, by simp⟩
    · split
      · exact ⟨hpz, by simp⟩
      · split
        · split
          · exact ⟨hpz, by simp⟩
          · exact ⟨hpz, by simp⟩
        · split
          · exact ⟨hpz, by simp [Out.isResult]⟩
          · exact ⟨hpz, by simp⟩
  | teardown =>
    exact ⟨hpz, by simp [step]⟩
  | catalogUpdate ds sel m p =>
    simp only [step]
    split
    · exact ⟨hpz, by simp⟩
    · exact ⟨hpz, by simp⟩

theorem paused_run (c : Config) (evs : List Event) (hpz : c.st.paused = true)
    (hs : ∀ e ∈ evs, Event.isInvokeStart e = false ∧ Event.isVisibilityShow e = false) :
    (run c evs).st.paused = true ∧ ∀ o ∈ outputs c evs, Out.isResult o = false := by
  induction evs generalizing c with
  | nil => exact ⟨hpz, by simp [outputs]⟩
  | cons e es ih =>
    obtain ⟨hh1, hh2⟩ := hs e (List.mem_cons_self e es)
    obtain ⟨hq1, hq2⟩ := paused_step c e hpz hh1 hh2
    obtain ⟨hr1, hr2⟩ := ih _ hq1 (fun e' he' => hs e' (List.mem_cons_of_mem e he'))
    refine ⟨hr1, ?_⟩
    intro o ho
    simp only [outputs, List.mem_append] at ho
    rcases ho with ho | ho
    · exact hq2 o ho
    · exact hr2 o ho

/-- Auxiliary: a single event either leaves `isStarting` unchanged, sets it to
false, or is a `start` invocation that passed the idle guard. -/
theorem isStarting_step (c : Config) (e : Event) :
    (step c e).1.st.isStarting = c.st.isStarting ∨
    (step c e).1.st.isStarting = false ∨
    (c.st.isStarting = false ∧ c.st.isRunning = false) := by
  cases e with
  | invokeStart m =>
    simp only [step]
    split
    · exact Or.inl rfl
    · split
      · exact Or.inl rfl
      · split
        · exact Or.inl rfl
        · rename_i hm hg hp
          simp only [Bool.or_eq_true, not_or, Bool.not_eq_true] at hg
          exact Or.inr (Or.inr ⟨hg.1, hg.2⟩)
  | acquireOk hasSwitch =>
    simp only [step]
    split
    · split
      · exact Or.inl rfl
      · exact Or.inl rfl
    · exact Or.inl rfl
  | acquireFail =>
    simp only [step]
    split
    · split
      · exact Or.inr (Or.inl rfl)
      · exact Or.inl rfl
    · exact Or.inl rfl
  | attachDone planned =>
    simp only [step]
    split
    · split
      · exact Or.inr (Or.inl rfl)
      · exact Or.inl rfl
    · exact Or.inl rfl
  | invokeStop =>
    simp only [step]
    split
    · exact Or.inl rfl
    · exact Or.inl rfl
  | torchTimerFire capTorch =>
    simp only [step]
    split
    · split
      · exact Or.inl rfl
      · exact Or.inl rfl
    · exact Or.inl rfl
  | lensTimerFire =>
    simp only [step]
    split
    · exact Or.inl rfl
    · exact Or.inl rfl
  | decodeTick now res =>
    simp only [step]
    split
    · exact Or.inl rfl
    · split
      · exact Or.inl rfl
      · cases res with
        | none => exact Or.inl rfl
        | some text =>
          simp only
          split
          · exact Or.inl rfl
          · exact Or.inl rfl
  | visibilityChange hidden =>
    simp only [step]
    split
    · exact Or.inl rfl
    · exact Or.inl rfl
  | toggleTorch ok =>
    simp only [step]
    split
    · exact Or.inl rfl
    · split
      · exact Or.inl rfl
      · split
        · split
          · exact Or.inl rfl
          · exact Or.inl rfl
        · exact Or.inl rfl
  | teardown =>
    exact Or.inl rfl
  | catalogUpdate ds sel m p =>
    simp only [step]
    split
    · exact Or.inl rfl
    · exact Or.inl rfl

/-- C1: at every reachable moment of the event loop, at most one of the
session flags `isStarting` and `isRunning` is true, and any event that makes
`isStarting` become true (a `start` invocation passing its guard) does so
only from the idle state, where both flags are false.  This holds for every
sequence of events, in particular every sequence of start/stop operations. -/
theorem session_flags_mutually_exclusive (c : Config) (h : Reachable c) :
    ¬(c.st.isStarting = true ∧ c.st.isRunning = true) ∧
    ∀ e : Event, (step c e).1.st.isStarting = true → c.st.isStarting = false →
      c.st.isStarting = false ∧ c.st.isRunning = false := by
  obtain ⟨hA, hB, hC, hD, hE, hF⟩ := inv_reachable h
  constructor
  · rintro ⟨h1, h2⟩
    rw [hA h1] at h2
    exact Bool.noConfusion h2
  · intro e hpost hpre
    refine ⟨hpre, ?_⟩
    rcases isStarting_step c e with hq | hq | hq
    · rw [hq, hpre] at hpost
      exact Bool.noConfusion hpost
    · rw [hq] at hpost
      exact Bool.noConfusion hpost
    · exact hq.2

/-- Witness for C1 at the initial configuration. -/
theorem session_flags_mutually_exclusive_witness :
    ¬(initConfig.st.isStarting = true ∧ initConfig.st.isRunning = true) :=
  (session_flags_mutually_exclusive initConfig Reachable.init).1

/-- C2 counterexample: the decode gate accepts a match only when
`now - lastResultAtRef.current > 500` with `lastResultAtRef` initialised to 0,
so in the claimed scenario — same payload at t = 0 ms, 100 ms, 600 ms — the
tick at t = 0 is itself suppressed and exactly one result (t = 600) is
forwarded, not the claimed two (t = 0 and t = 600). -/
theorem debounce_first_tick_suppressed_cx :
    outputs initConfig
      [.invokeStart .backMain, .acquireOk false, .attachDone none,
       .decodeTick 0 (some "PAYLOAD"), .decodeTick 100 (some "PAYLOAD"),
       .decodeTick 600 (some "PAYLOAD")]
      = [.result 600 "PAYLOAD"] := by decide

/-- C2 amended: for match ticks with the same payload at times t0, t0+100 ms
and t0+600 ms, where t0 is more than 500 ms after the gate's reference
timestamp (initially 0), exactly two results are forwarded — those at t0 and
t0+600 — and none at t0+100. -/
theorem debounce_window_amended (c : Config) (p : String) (t0 : Nat)
    (hm : c.st.mounted = true) (hp : c.st.paused = false)
    (hd : c.st.decodeActive = true) (hw : c.st.lastResultAt + 500 < t0) :
    outputs c [.decodeTick t0 (some p), .decodeTick (t0 + 100) (some p),
               .decodeTick (t0 + 600) (some p)]
      = [.result t0 p, .result (t0 + 600) p] := by
  have h1 : t0 - c.st.lastResultAt > 500 := by omega
  have h2 : ¬(t0 + 100 - t0 > 500) := by omega
  have h3 : t0 + 600 - t0 > 500 := by omega
  simp [outputs, step, hm, hp, hd, h1, h2, h3]

/-- Witness for C2 amended: a freshly started session, first tick at 501 ms. -/
theorem debounce_window_amended_witness :
    outputs (run initConfig [.invokeStart .backMain, .acquireOk false, .attachDone none])
      [.decodeTick 501 (some "QR"), .decodeTick (501 + 100) (some "QR"),
       .decodeTick (501 + 600) (some "QR")]
      = [.result 501 "QR", .result (501 + 600) "QR"] :=
  debounce_window_amended _ "QR" 501 (by decide) (by decide) (by decide) (by decide)

/-- C3 counterexample: in the fallback driver at lines 835-863 a tier-1
failure of the `NotAllowedError` class (neither overconstrained nor
device-not-found) does not abort `start` — the facing-mode tier is still
attempted and can succeed; and in the driver at lines 2044-2093 a tier-2
failure of the `NotAllowedError` class does not abort — the unconstrained
tier is still attempted.  This contradicts the claim that any failure class
other than overconstrained/not-found aborts immediately without falling
through. -/
theorem fallback_error_class_cx :
    acquireWithFallback (.error .notAllowed) (.ok ()) (.ok ())
      = ([.exactDevice, .facingMode], .ok ()) ∧
    acquireWithFallbackChecked (.error .overconstrained) (.error .notAllowed) (.ok ())
      = ([.exactDevice, .facingMode, .unconstrained], .ok ()) := ⟨rfl, rfl⟩

/-- C3 amended: the three tiers are tried in order and each later tier is
attempted only if the previous one failed; in the driver at lines 835-863 the
fallbacks happen on any failure class, while in the driver at lines 2044-2093
the facing-mode tier requires a tier-1 overconstrained/not-found failure (any
other class aborts immediately with that error) but the unconstrained tier is
reached on any tier-2 failure; an acquisition failure is surfaced only when
the last attempted tier fails — in the 835-863 driver, only when all three
tiers have failed. -/
theorem fallback_tiers_amended (r1 r2 r3 : Except MediaErr Unit) :
    ((AcqTier.facingMode ∈ (acquireWithFallback r1 r2 r3).1) ↔ exOk r1 = false) ∧
    ((AcqTier.unconstrained ∈ (acquireWithFallback r1 r2 r3).1) ↔
        (exOk r1 = false ∧ exOk r2 = false)) ∧
    ((exOk (acquireWithFallback r1 r2 r3).2 = false) ↔
        (exOk r1 = false ∧ exOk r2 = false ∧ exOk r3 = false)) ∧
    ((AcqTier.facingMode ∈ (acquireWithFallbackChecked r1 r2 r3).1) ↔
        (∃ e, r1 = .error e ∧ isFallbackErr e = true)) ∧
    ((AcqTier.unconstrained ∈ (acquireWithFallbackChecked r1 r2 r3).1) ↔
        ((∃ e, r1 = .error e ∧ isFallbackErr e = true) ∧ exOk r2 = false)) ∧
    (∀ e, r1 = .error e → isFallbackErr e = false →
        acquireWithFallbackChecked r1 r2 r3 = ([.exactDevice], .error e)) := by
  cases r1 with
  | ok u =>
    cases u
    cases r2 with
    | ok u2 =>
      cases u2
      cases r3 with
      | ok u3 => cases u3; simp [acquireWithFallback, acquireWithFallbackChecked, exOk]
      | error e3 => simp [acquireWithFallback, acquireWithFallbackChecked, exOk]
    | error e2 =>
      cases r3 with
      | ok u3 => cases u3; simp [acquireWithFallback, acquireWithFallbackChecked, exOk]
      | error e3 => simp [acquireWithFallback, acquireWithFallbackChecked, exOk]
  | error e1 =>
    by_cases hf : isFallbackErr e1 = true
    · cases r2 with
      | ok u2 =>
        cases u2
        cases r3 with
        | ok u3 => cases u3; simp [acquireWithFallback, acquireWithFallbackChecked, exOk, hf]
        | error e3 => simp [acquireWithFallback, acquireWithFallbackChecked, exOk, hf]
      | error e2 =>
        cases r3 with
        | ok u3 => cases u3; simp [acquireWithFallback, acquireWithFallbackChecked, exOk, hf]
        | error e3 => simp [acquireWithFallback, acquireWithFallbackChecked, exOk, hf]
    · simp only [Bool.not_eq_true] at hf
      cases r2 with
      | ok u2 =>
        cases u2
        cases r3 with
        | ok u3 => cases u3; simp [acquireWithFallback, acquireWithFallbackChecked, exOk, hf]
        | error e3 => simp [acquireWithFallback, acquireWithFallbackChecked, exOk, hf]
      | error e2 =>
        cases r3 with
        | ok u3 => cases u3; simp [acquireWithFallback, acquireWithFallbackChecked, exOk, hf]
        | error e3 => simp [acquireWithFallback, acquireWithFallbackChecked, exOk, hf]

/-- Witness for C3 amended: an overconstrained tier-1 failure followed by a
not-allowed tier-2 failure still reaches the unconstrained tier. -/
theorem fallback_tiers_amended_witness :
    AcqTier.unconstrained ∈
      (acquireWithFallbackChecked (.error .overconstrained) (.error .notAllowed) (.ok ())).1 :=
  ((fallback_tiers_amended (.error .overconstrained) (.error .notAllowed)
      (.ok ())).2.2.2.2.1).mpr ⟨⟨.overconstrained, rfl, rfl⟩, rfl⟩

/-- C4: if the component is torn down (`mountedRef` cleared) while `start` is
awaiting stream acquisition, then when acquisition resolves the acquired
stream is released immediately (no attached stream, decode loop stopped) and
`isRunning` is never set to true — neither by the resolution step nor by any
later event. -/
theorem teardown_race_releases_stream (c : Config) (m : CameraMode) (hasSwitch : Bool)
    (h : Reachable c) (hp : c.pending = some (.acquiring m)) (hm : c.st.mounted = false) :
    (step c (.acquireOk hasSwitch)).1.st.videoSrc = false ∧
    (step c (.acquireOk hasSwitch)).1.st.decodeActive = false ∧
    (step c (.acquireOk hasSwitch)).1.st.isRunning = false ∧
    ∀ evs : List Event, (run (step c (.acquireOk hasSwitch)).1 evs).st.isRunning = false := by
  obtain ⟨hA, hB, hC, hD, hE, hF⟩ := inv_reachable h
  have hr : c.st.isRunning = false := (hB _ hp).2
  have hstep : (step c (.acquireOk hasSwitch)).1
      = { st := { c.st with decodeActive := false, videoSrc := false }
        , pending := none, timers := c.timers } := by
    simp only [step, hp]
    split
    · rename_i hco
      rw [hm] at hco
      exact absurd hco (by simp)
    · rfl
  have hdead : Dead (step c (.acquireOk hasSwitch)).1 := by
    rw [hstep]
    exact ⟨hm, hr, rfl⟩
  refine ⟨?_, ?_, ?_, ?_⟩
  · rw [hstep]
  · rw [hstep]
  · rw [hstep]
    exact hr
  · intro evs
    exact (dead_run _ evs hdead).2.1

/-- Witness for C4: tear down during acquisition, then resolve and continue. -/
theorem teardown_race_releases_stream_witness :
    (step (run initConfig [.invokeStart .backMain, .teardown]) (.acquireOk true)).1.st.videoSrc = false ∧
    (step (run initConfig [.invokeStart .backMain, .teardown]) (.acquireOk true)).1.st.decodeActive = false ∧
    (step (run initConfig [.invokeStart .backMain, .teardown]) (.acquireOk true)).1.st.isRunning = false ∧
    (run (step (run initConfig [.invokeStart .backMain, .teardown]) (.acquireOk true)).1
      [.attachDone none, .decodeTick 999 (some "z")]).st.isRunning = false := by
  have h := teardown_race_releases_stream
    (run initConfig [.invokeStart .backMain, .teardown]) .backMain true
    (reachable_run Reachable.init _) (by decide) (by decide)
  exact ⟨h.1, h.2.1, h.2.2.1, h.2.2.2 [.attachDone none, .decodeTick 999 (some "z")]⟩

/-- C5 counterexample: `stop()` issued while a `start` is awaiting acquisition
resets both torch flags, but the late-resolving `start` re-adopts the
controls handle and its deferred capability probe then sets
`torchSupported = true` — after the stop, with no subsequent `start` call. -/
theorem torch_flags_revived_after_stop_cx :
    (run initConfig [.invokeStart .backMain, .invokeStop]).st.torchSupported = false ∧
    (run initConfig [.invokeStart .backMain, .invokeStop, .acquireOk true,
        .attachDone none, .torchTimerFire true]).st.torchSupported = true := by decide

/-- C5 amended: after a `stop()` issued while no `start` invocation is in
flight, `torchSupported` and `torchOn` are false immediately and remain false
at every later moment until a subsequent `start` invocation, including across
any deferred capability-probe callbacks scheduled by an earlier start (they
find no controls handle and no attached stream, and write false). -/
theorem torch_flags_after_stop_amended (c : Config) (evs : List Event)
    (hpend : c.pending = none) (hm : c.st.mounted = true)
    (hs : ∀ e ∈ evs, Event.isInvokeStart e = false) :
    (step c .invokeStop).1.st.torchSupported = false ∧
    (step c .invokeStop).1.st.torchOn = false ∧
    (run (step c .invokeStop).1 evs).st.torchSupported = false ∧
    (run (step c .invokeStop).1 evs).st.torchOn = false := by
  have hcl : TorchClean (step c .invokeStop).1 := by
    refine ⟨hpend, ?_, ?_, ?_, ?_⟩ <;> simp only [step] <;> split
    · rfl
    · rfl
    · rfl
    · rfl
    · rfl
    · rename_i hco
      exact absurd hm hco
    · rfl
    · rename_i hco
      exact absurd hm hco
  have h2 := torchClean_run _ evs hcl hs
  exact ⟨hcl.2.2.2.1, hcl.2.2.2.2, h2.2.2.2.1, h2.2.2.2.2⟩

/-- Witness for C5 amended: stop a completed session, then fire the pending
probe timer, toggle the torch and change visibility. -/
theorem torch_flags_after_stop_amended_witness :
    (step (run initConfig [.invokeStart .backMain, .acquireOk true, .attachDone none])
        .invokeStop).1.st.torchSupported = false ∧
    (step (run initConfig [.invokeStart .backMain, .acquireOk true, .attachDone none])
        .invokeStop).1.st.torchOn = false ∧
    (run (step (run initConfig [.invokeStart .backMain, .acquireOk true, .attachDone none])
        .invokeStop).1
      [.torchTimerFire true, .toggleTorch true, .visibilityChange false]).st.torchSupported = false ∧
    (run (step (run initConfig [.invokeStart .backMain, .acquireOk true, .attachDone none])
        .invokeStop).1
      [.torchTimerFire true, .toggleTorch true, .visibilityChange false]).st.torchOn = false :=
  torch_flags_after_stop_amended _ _ (by decide) (by decide) (by decide)

/-- C6 counterexample: calling `stop()` on the freshly created, idle component
changes the decode-pause flag from false to true, so the observable state is
not left entirely unchanged. -/
theorem stop_changes_pause_flag_cx :
    initConfig.st.isStarting = false ∧ initConfig.st.isRunning = false ∧
    initConfig.st.paused = false ∧ (step initConfig .invokeStop).1.st.paused = true := by decide

/-- C6 amended: `stop()` is idempotent — a second `stop()` leaves the
configuration of the first unchanged — it never surfaces an error, and when
called on a reachable idle session it leaves devices, selectedDeviceId, mode,
isStarting, isRunning, torchSupported and torchOn unchanged; the decode-pause
flag however is unconditionally set to true. -/
theorem stop_idempotent_amended (c : Config) (h : Reachable c)
    (hs : c.st.isStarting = false) (hr : c.st.isRunning = false) :
    (step (step c .invokeStop).1 .invokeStop).1 = (step c .invokeStop).1 ∧
    (step c .invokeStop).2 = [] ∧
    (step c .invokeStop).1.st.devices = c.st.devices ∧
    (step c .invokeStop).1.st.selectedDeviceId = c.st.selectedDeviceId ∧
    (step c .invokeStop).1.st.mode = c.st.mode ∧
    (step c .invokeStop).1.st.isStarting = c.st.isStarting ∧
    (step c .invokeStop).1.st.isRunning = c.st.isRunning ∧
    (step c .invokeStop).1.st.torchSupported = c.st.torchSupported ∧
    (step c .invokeStop).1.st.torchOn = c.st.torchOn ∧
    (step c .invokeStop).1.st.paused = true := by
  obtain ⟨hA, hB, hC, hD, hE, hF⟩ := inv_reachable h
  obtain ⟨hts, hto⟩ := hF hs hr
  refine ⟨?_, rfl, ?_, ?_, ?_, ?_, ?_, ?_, ?_, ?_⟩
  · by_cases hm : c.st.mounted = true <;> simp [step, hm]
  · simp only [step]
    split
    · rfl
    · rfl
  · simp only [step]
    split
    · rfl
    · rfl
  · simp only [step]
    split
    · rfl
    · rfl
  · simp only [step]
    split
    · exact hs.symm ▸ rfl
    · rfl
  · simp only [step]
    split
    · exact hr.symm
    · rfl
  · simp only [step]
    split
    · exact hts.symm
    · rfl
  · simp only [step]
    split
    · exact hto.symm
    · rfl
  · simp only [step]
    split
    · rfl
    · rfl

/-- Witness for C6 amended at the initial idle configuration. -/
theorem stop_idempotent_amended_witness :
    (step (step initConfig .invokeStop).1 .invokeStop).1 = (step initConfig .invokeStop).1 ∧
    (step initConfig .invokeStop).2 = [] ∧
    (step initConfig .invokeStop).1.st.devices = initConfig.st.devices ∧
    (step initConfig .invokeStop).1.st.selectedDeviceId = initConfig.st.selectedDeviceId ∧
    (step initConfig .invokeStop).1.st.mode = initConfig.st.mode ∧
    (step initConfig .invokeStop).1.st.isStarting = initConfig.st.isStarting ∧
    (step initConfig .invokeStop).1.st.isRunning = initConfig.st.isRunning ∧
    (step initConfig .invokeStop).1.st.torchSupported = initConfig.st.torchSupported ∧
    (step initConfig .invokeStop).1.st.torchOn = initConfig.st.torchOn ∧
    (step initConfig .invokeStop).1.st.paused = true :=
  stop_idempotent_amended initConfig Reachable.init rfl rfl

/-- C7: when `permissionStatus` is `denied` and the session is idle, a
`start` invocation surfaces a permission-denied error through the error
callback and returns immediately, changing nothing — in particular no
acquisition phase is entered and the session stays idle. -/
theorem start_denied_short_circuits (c : Config) (m : CameraMode)
    (hm : c.st.mounted = true) (hs : c.st.isStarting = false)
    (hr : c.st.isRunning = false) (hd : c.st.permissionStatus = .denied) :
    step c (.invokeStart m) = (c, [.error .permissionDenied]) := by
  simp [step, hm, hs, hr, hd]

/-- Witness for C7. -/
theorem start_denied_short_circuits_witness :
    step { initConfig with st := { initConfig.st with permissionStatus := .denied } }
        (.invokeStart .auto)
      = ({ initConfig with st := { initConfig.st with permissionStatus := .denied } },
         [.error .permissionDenied]) :=
  start_denied_short_circuits _ .auto rfl rfl rfl rfl

/-- C8: `categorizeCameras` on the labels "Back Camera", "Back Ultra Wide
Camera", "Front Camera" classifies back-main = "Back Camera", back-wide =
"Back Ultra Wide Camera" and front = "Front Camera". -/
theorem categorize_standard_labels :
    categorizeCameras
      [⟨"id-main", "Back Camera"⟩, ⟨"id-wide", "Back Ultra Wide Camera"⟩,
       ⟨"id-front", "Front Camera"⟩]
      = { pickBackMain := some ⟨"id-main", "Back Camera"⟩
        , pickBackWide := some ⟨"id-wide", "Back Ultra Wide Camera"⟩
        , pickFront := some ⟨"id-front", "Front Camera"⟩ } := by decide

/-- C9 counterexample: a result can be forwarded between `stop()` and the next
`start()` — a `start` in flight at the moment of the stop later resolves and
revives the decode loop, and a visibilitychange back to visible clears the
pause flag that `stop()` set; the subsequent tick is forwarded although no
`start` was invoked after the stop. -/
theorem result_forwarded_after_stop_cx :
    outputs initConfig
      [.invokeStart .backMain, .invokeStop, .visibilityChange false,
       .acquireOk true, .attachDone none, .decodeTick 1000 (some "x")]
      = [.result 1000 "x"] := by decide

/-- C9 amended: between a `stop()` and the next `start()` no decode tick is
forwarded, provided no visibilitychange event makes the page visible in that
interval: `stop()` sets the pause flag checked by the decode callback on
every tick, and only a `start` invocation or a visibilitychange event clears
it. -/
theorem no_results_after_stop_amended (c : Config) (evs : List Event)
    (hs : ∀ e ∈ evs, Event.isInvokeStart e = false ∧ Event.isVisibilityShow e = false) :
    ∀ o ∈ outputs (step c .invokeStop).1 evs, Out.isResult o = false := by
  have hpz : (step c .invokeStop).1.st.paused = true := by
    simp only [step]
    split
    · rfl
    · rfl
  exact (paused_run _ evs hpz hs).2

/-- Witness for C9 amended: stop a session mid-start, then let the stale start
resolve and deliver ticks — nothing is forwarded. -/
theorem no_results_after_stop_amended_witness :
    (outputs (step (run initConfig [.invokeStart .backMain]) .invokeStop).1
        [.acquireOk true, .attachDone none, .decodeTick 1000 (some "x"),
         .visibilityChange true, .decodeTick 2000 (some "y")]).any Out.isResult = false := by
  have h := no_results_after_stop_amended (run initConfig [.invokeStart .backMain])
      [.acquireOk true, .attachDone none, .decodeTick 1000 (some "x"),
       .visibilityChange true, .decodeTick 2000 (some "y")] (by decide)
  rw [List.any_eq_false]
  intro o ho
  simp [h o ho]

/-- C10: the 500 ms debounce compares only timestamps, never payloads: a first
match tick is accepted whenever it is more than 500 ms past the reference
timestamp, and a second tick within 500 ms of the accepted one is suppressed
for every payload — in particular when its decoded text differs from the
first. -/
theorem debounce_payload_blind (c : Config) (t1 t2 : Nat) (p1 p2 : String)
    (hm : c.st.mounted = true) (hp : c.st.paused = false)
    (hd : c.st.decodeActive = true) (h1 : c.st.lastResultAt + 500 < t1)
    (h2 : t2 ≤ t1 + 500) :
    (step c (.decodeTick t1 (some p1))).2 = [.result t1 p1] ∧
    (step (step c (.decodeTick t1 (some p1))).1 (.decodeTick t2 (some p2))).2 = [] := by
  have hg1 : t1 - c.st.lastResultAt > 500 := by omega
  have hg2 : ¬(t2 - t1 > 500) := by omega
  constructor
  · simp [step, hm, hp, hd, hg1]
  · simp [step, hm, hp, hd, hg1, hg2]

/-- Witness for C10: payloads "A" then "B", 99 ms apart. -/
theorem debounce_payload_blind_witness :
    (step (run initConfig [.invokeStart .backMain, .acquireOk false, .attachDone none])
        (.decodeTick 501 (some "A"))).2 = [.result 501 "A"] ∧
    (step (step (run initConfig [.invokeStart .backMain, .acquireOk false, .attachDone none])
        (.decodeTick 501 (some "A"))).1 (.decodeTick 600 (some "B"))).2 = [] :=
  debounce_payload_blind _ 501 600 "A" "B" (by decide) (by decide) (by decide)
    (by decide) (by decide)

end Scanner
